import Mathlib

/-!
Verification of the gowiki server (src/wiki.go) against its specification.

The source file contains two revisions of the program.  Both share the data
model (`Page`), the page store (`Page.save`, `loadPage`), the route dispatcher
(`makeHandler` over the `validPath` regular expression) and the handlers
(`viewHandler`, `editHandler`, `saveHandler`, `homeHandler`); the revisions
differ in the character class of `validPath` and in whether `saveHandler`
normalizes spaces in the title.  We embed the later revision's definitions
under the source names and the initial revision's validator as `...V1`.

The filesystem is modelled as a record of existing directories (with a
writability flag) and a finite map from file paths to contents and permission
mode, mirroring the behaviour of `os.WriteFile`, `os.ReadFile`, `os.Remove`
and `os.Open`/`Readdir` on those states.  Page bodies are byte lists
(`[]byte`); Go's `[]byte(string)` conversion is UTF-8 encoding.
-/

deriving instance DecidableEq for Except

namespace Wiki

/-- Bytes as natural numbers below 256; Go `[]byte`. -/
abbrev Bytes := List Nat

/-- UTF-8 encoding of one character, as Go's string-to-bytes conversion does. -/
def utf8Encode (c : Char) : Bytes :=
  let n := c.toNat
  if n < 0x80 then [n]
  else if n < 0x800 then [0xC0 + n / 0x40, 0x80 + n % 0x40]
  else if n < 0x10000 then
    [0xE0 + n / 0x1000, 0x80 + (n / 0x40) % 0x40, 0x80 + n % 0x40]
  else
    [0xF0 + n / 0x40000, 0x80 + (n / 0x1000) % 0x40, 0x80 + (n / 0x40) % 0x40,
     0x80 + n % 0x40]

/-- Go `[]byte(s)`: UTF-8 encode the string. -/
def strBytes (s : String) : Bytes :=
  s.data.flatMap utf8Encode

/-- `type Page struct { Title string; Body []byte }` (src/wiki.go). -/
structure Page where
  Title : String
  Body  : Bytes
  deriving DecidableEq

/-- Model of the filesystem state the program manipulates: the set of existing
directories with their writability, and the existing files as a finite map
from full path to contents and permission mode. -/
structure FS where
  dirs  : List (String × Bool)
  files : List (String × Bytes × Nat)
  deriving DecidableEq

/-- Look up a file by full path (paths are unique keys). -/
def lookupFile (path : String) : List (String × Bytes × Nat) → Option (Bytes × Nat)
  | [] => none
  | (p, b, m) :: rest => if p = path then some (b, m) else lookupFile path rest

/-- Write a file: replace the contents of an existing entry, keeping its mode
(as `os.WriteFile` does on an existing file), or append a fresh entry with the
given mode. -/
def setFile (path : String) (b : Bytes) (mode : Nat) :
    List (String × Bytes × Nat) → List (String × Bytes × Nat)
  | [] => [(path, b, mode)]
  | (p, bv, m) :: rest =>
      if p = path then (p, b, m) :: rest else (p, bv, m) :: setFile path b mode rest

/-- Remove a file by path. -/
def eraseFile (path : String) :
    List (String × Bytes × Nat) → List (String × Bytes × Nat)
  | [] => []
  | (p, b, m) :: rest =>
      if p = path then eraseFile path rest else (p, b, m) :: eraseFile path rest

/-- Directory part of a path: everything before the last separator. -/
def dirOfAux : List Char → List Char
  | [] => []
  | c :: rest => if c = '/' then rest else dirOfAux rest

/-- Directory containing a path ("" when the path has no separator). -/
def dirOf (path : String) : String :=
  ⟨(dirOfAux path.data.reverse).reverse⟩

/-- Final component of a path. -/
def baseName (path : String) : String :=
  ⟨(path.data.reverse.takeWhile (fun c => !(c = '/'))).reverse⟩

/-- `os.WriteFile path b mode`: succeeds exactly when the containing directory
exists and is writable; creates the file with `mode` or truncates an existing
file (keeping its old mode). -/
def FS.writeFile (fs : FS) (path : String) (b : Bytes) (mode : Nat) : Except String FS :=
  match fs.dirs.lookup (dirOf path) with
  | some true => .ok { fs with files := setFile path b mode fs.files }
  | some false => .error ("open " ++ path ++ ": permission denied")
  | none => .error ("open " ++ path ++ ": no such file or directory")

/-- `os.ReadFile path`: the file's bytes, or an error when it does not exist. -/
def FS.readFile (fs : FS) (path : String) : Except String Bytes :=
  match lookupFile path fs.files with
  | some (b, _) => .ok b
  | none => .error ("open " ++ path ++ ": no such file or directory")

/-- `os.Remove path`: drop the file; error when it does not exist. -/
def FS.remove (fs : FS) (path : String) : Except String FS :=
  match lookupFile path fs.files with
  | some _ => .ok { fs with files := eraseFile path fs.files }
  | none => .error ("remove " ++ path ++ ": no such file or directory")

/-- `os.Open "./pages"` followed by `Readdir(0)`: the names of the entries
directly inside the pages directory, or an error when the directory is
missing. -/
def FS.readDirPages (fs : FS) : Except String (List String) :=
  match fs.dirs.lookup "pages" with
  | some _ =>
      .ok (fs.files.filterMap
        (fun f => if dirOf f.1 = "pages" then some (baseName f.1) else none))
  | none => .error ("open ./pages: no such file or directory")

/-- `func (p *Page) save() error` (src/wiki.go): write
`pages/<title>.txt` with the body and permission mode 0600. -/
def Page.save (p : Page) (fs : FS) : Except String FS :=
  let filename := p.Title ++ ".txt"
  fs.writeFile ("pages/" ++ filename) p.Body 0o600

/-- `func loadPage(title string) (*Page, error)` (src/wiki.go): read
`pages/<title>.txt`; `none` on any read failure. -/
def loadPage (title : String) (fs : FS) : Option Page :=
  let filename := title ++ ".txt"
  match fs.readFile ("pages/" ++ filename) with
  | .ok body => some ⟨title, body⟩
  | .error _ => none

/-- Character class `[a-zA-Z0-9]` of the initial revision's `validPath`. -/
def isTitleCharV1 (c : Char) : Bool :=
  ('a' ≤ c && c ≤ 'z') || ('A' ≤ c && c ≤ 'Z') || ('0' ≤ c && c ≤ '9')

/-- Character class `[a-zA-Z0-9-_]` of the later revision's `validPath`. -/
def isTitleChar (c : Char) : Bool :=
  isTitleCharV1 c || c = '-' || c = '_'

/-- A title accepted by the later revision's pattern: nonempty, all characters
in the class. -/
def isValidTitle (t : String) : Bool :=
  !t.data.isEmpty && t.data.all isTitleChar

/-- Split a character list at the first separator: returns the prefix before
the first slash and the remainder starting at that slash. -/
def splitSeg : List Char → List Char × List Char
  | [] => ([], [])
  | c :: cs =>
      if c = '/' then ([], c :: cs)
      else
        let (a, b) := splitSeg cs
        (c :: a, b)

/-- Matching of a path against an anchored pattern `^/(act1|...|actn)/(cls+)$`:
the path must be a slash, one of the action words, a slash, then a nonempty
run of class characters.  This is exactly the language of the source's
`validPath.FindStringSubmatch`, returning the two capture groups. -/
def matchPath (acts : List String) (tc : Char → Bool) (cs : List Char) :
    Option (String × String) :=
  match cs with
  | [] => none
  | c :: rest =>
      if c = '/' then
        match splitSeg rest with
        | (seg, d :: title) =>
            if d = '/' && acts.contains ⟨seg⟩ && !title.isEmpty && title.all tc then
              some (⟨seg⟩, ⟨title⟩)
            else none
        | (_, []) => none
      else none

/-- `validPath = regexp.MustCompile("^/(edit|save|view)/([a-zA-Z0-9-_]+)$")`
(later revision, src/wiki.go): the two submatches, or `none`. -/
def findValidPath (path : String) : Option (String × String) :=
  matchPath ["edit", "save", "view"] isTitleChar path.data

/-- `validPath = regexp.MustCompile("^/(edit|save|view)/([a-zA-Z0-9]+)$")`
(initial revision, src/wiki.go): the two submatches, or `none`. -/
def findValidPathV1 (path : String) : Option (String × String) :=
  matchPath ["edit", "save", "view"] isTitleCharV1 path.data

/-- Modelled from the spec: the specification's Title Validator pattern
`^/(edit|save|view|delete)/([A-Za-z0-9_-]+)$` (spec §4.1), which includes a
`delete` alternative that appears in no revision under src/. -/
def specFindValidPath (path : String) : Option (String × String) :=
  matchPath ["edit", "save", "view", "delete"] isTitleChar path.data

/-- The observable HTTP response a handler produces.  `empty` is a handler
returning without writing anything (net/http then sends an empty 200 body);
`render` is `renderTemplate` executing the named template with a page;
`renderHome` is the home template executed with the page list (a `none` entry
is a nil `*Page`). -/
inductive Response where
  | empty
  | notFound
  | redirect (loc : String) (code : Nat)
  | render (tmpl : String) (page : Page)
  | renderHome (data : List (Option Page))
  | serverError (body : String)
  | fatal
  deriving DecidableEq

/-- `http.StatusFound`. -/
def statusFound : Nat := 302

/-- `func viewHandler(w, r, title)` (src/wiki.go): on load failure redirect to
`/edit/<title>` with status 302, otherwise render the view template. -/
def viewHandler (title : String) (fs : FS) : Response :=
  match loadPage title fs with
  | none => .redirect ("/edit/" ++ title) statusFound
  | some p => .render "view" p

/-- `func editHandler(w, r, title)` (src/wiki.go): on load failure render the
edit template with `&Page{Title: title}` (zero-value empty body), otherwise
render it with the loaded page. -/
def editHandler (title : String) (fs : FS) : Response :=
  match loadPage title fs with
  | none => .render "edit" ⟨title, []⟩
  | some p => .render "edit" p

/-- `strings.ReplaceAll(title, " ", "_")` for the single-character pattern. -/
def replaceSpaces (s : String) : String :=
  ⟨s.data.map (fun c => if c = ' ' then '_' else c)⟩

/-- `func saveHandler(w, r, title)` (later revision, src/wiki.go): read the
`body` form value, replace spaces in the title by underscores, save the page;
500 with the error text on failure, else redirect to `/view/<title>` with
status 302. -/
def saveHandler (title : String) (body : String) (fs : FS) : FS × Response :=
  let title := replaceSpaces title
  let p : Page := ⟨title, strBytes body⟩
  match p.save fs with
  | .error e => (fs, .serverError e)
  | .ok fs' => (fs', .redirect ("/view/" ++ title) statusFound)

/-- `func makeHandler(fn)` (later revision, src/wiki.go): match the URL path
against `validPath`; not found when the match fails, otherwise call the
handler with the second submatch. -/
def makeHandler (fn : String → FS → FS × Response) (path : String) (fs : FS) :
    FS × Response :=
  match findValidPath path with
  | none => (fs, .notFound)
  | some (_, t) => fn t fs

/-- `func makeHandler(fn)` of the initial revision: identical code, but the
global `validPath` it reads has the narrower `[a-zA-Z0-9]` class. -/
def makeHandlerV1 (fn : String → FS → FS × Response) (path : String) (fs : FS) :
    FS × Response :=
  match findValidPathV1 path with
  | none => (fs, .notFound)
  | some (_, t) => fn t fs

/-- `func fileNameWithoutExtSliceNotation(fileName string) string`
(src/wiki.go): `fileName[:len(fileName)-len(filepath.Ext(fileName))]`. -/
def extLenAux : List Char → Option Nat
  | [] => none
  | c :: cs =>
      if c = '/' then none
      else if c = '.' then some 1
      else (extLenAux cs).map (· + 1)

/-- Length of `filepath.Ext`: the suffix starting at the last dot of the final
path element, empty when there is none. -/
def filepathExtLen (name : String) : Nat :=
  (extLenAux name.data.reverse).getD 0

/-- The file name with its extension sliced off, as the source computes it. -/
def fileNameWithoutExtSliceNotation (fileName : String) : String :=
  ⟨fileName.data.take (fileName.data.length - filepathExtLen fileName)⟩

/-- `func homeHandler(w, r)` (src/wiki.go): list the pages directory
(returning silently when the open or the listing fails), load every listed
name with its extension stripped (keeping failed loads as nil entries), then
404 on any path other than `/`, else render the home template with the
list. -/
def homeHandler (path : String) (fs : FS) : Response :=
  match fs.readDirPages with
  | .error _ => .empty
  | .ok files =>
      let data := files.map (fun v => loadPage ( fileNameWithoutExtSliceNotation v) fs)
      if path ≠ "/" then .notFound
      else .renderHome data

/-- Modelled from the spec: the delete handler (spec §4.3) is absent from
src/ — it removes the page's file, halts abnormally on failure, and on
success redirects home with status 302. -/
def deleteHandler (title : String) (fs : FS) : FS × Response :=
  let filename := title ++ ".txt"
  match fs.remove ("pages/" ++ filename) with
  | .error _ => (fs, .fatal)
  | .ok fs' => (fs', .redirect "/" statusFound)

/-- Modelled from the spec: the `GET /delete/<title>` route (spec §4.3, §6) is
absent from src/ — the path is gated by the spec's Title Validator pattern and
on match dispatched to the delete handler. -/
def deleteRoute (path : String) (fs : FS) : FS × Response :=
  match specFindValidPath path with
  | none => (fs, .notFound)
  | some (_, t) => deleteHandler t fs

/-! ### Concrete filesystem states used to exercise the definitions -/

/-- No directories, no files. -/
def fsEmpty : FS := ⟨[], []⟩

/-- A writable, empty pages directory. -/
def fsW : FS := ⟨[("pages", true)], []⟩

/-- A writable pages directory holding one saved page `test`. -/
def fsW1 : FS := ⟨[("pages", true)], [("pages/test.txt", strBytes "hi", 0o600)]⟩

/-- A pages directory holding `a.txt` and a stray `b.md` whose stripped title
`b` has no backing `b.txt`, so its load fails during the home listing. -/
def fsHome : FS :=
  ⟨[("pages", true)],
   [("pages/a.txt", strBytes "x", 0o600), ("pages/b.md", strBytes "y", 0o600)]⟩

/-! ### Helper lemmas about the filesystem map -/

theorem lookupFile_setFile_none (k : String) (b : Bytes) (mode : Nat)
    (l : List (String × Bytes × Nat)) (h : lookupFile k l = none) :
    lookupFile k (setFile k b mode l) = some (b, mode) := by
  induction l with
  | nil => simp [setFile, lookupFile]
  | cons e rest ih =>
      obtain ⟨p, bv, m⟩ := e
      by_cases hp : p = k
      · simp [lookupFile, hp] at h
      · simp only [lookupFile, if_neg hp] at h
        simp only [setFile, if_neg hp, lookupFile]
        exact ih h

theorem lookupFile_setFile_some (k : String) (b : Bytes) (mode : Nat)
    (old : Bytes) (m : Nat)
    (l : List (String × Bytes × Nat)) (h : lookupFile k l = some (old, m)) :
    lookupFile k (setFile k b mode l) = some (b, m) := by
  induction l with
  | nil => simp [lookupFile] at h
  | cons e rest ih =>
      obtain ⟨p, bv, mm⟩ := e
      by_cases hp : p = k
      · subst hp
        simp [lookupFile] at h
        rw [h.2]
        simp [setFile, lookupFile]
      · simp only [lookupFile, if_neg hp] at h
        simp only [setFile, if_neg hp, lookupFile]
        exact ih h

theorem lookupFile_eraseFile (k : String) (l : List (String × Bytes × Nat)) :
    lookupFile k (eraseFile k l) = none := by
  induction l with
  | nil => simp [eraseFile, lookupFile]
  | cons e rest ih =>
      obtain ⟨p, bv, m⟩ := e
      by_cases hp : p = k
      · simp [eraseFile, hp, ih]
      · simp only [eraseFile, if_neg hp, lookupFile]
        exact ih

/-! ### Helper lemmas about paths and the validator -/

theorem dirOfAux_append (xs ys : List Char) (h : ∀ c ∈ xs, ¬ c = '/') :
    dirOfAux (xs ++ '/' :: ys) = ys := by
  induction xs with
  | nil => simp [dirOfAux]
  | cons c cs ih =>
      have hc : ¬ c = '/' := h c (List.mem_cons_self c cs)
      simp only [List.cons_append, dirOfAux, if_neg hc]
      exact ih (fun d hd => h d (List.mem_cons_of_mem c hd))

theorem dirOf_pages (t : String) (h : ∀ c ∈ t.data, ¬ c = '/') :
    dirOf ("pages/" ++ (t ++ ".txt")) = "pages" := by
  apply String.ext
  show (dirOfAux ("pages/" ++ (t ++ ".txt")).data.reverse).reverse = "pages".data
  have hd : ("pages/" ++ (t ++ ".txt")).data
      = "pages/".data ++ (t.data ++ ".txt".data) := by
    simp [String.data_append]
  rw [hd]
  have hrev : ("pages/".data ++ (t.data ++ ".txt".data)).reverse
      = (".txt".data.reverse ++ t.data.reverse) ++ '/' :: "pages".data.reverse := by
    simp [List.reverse_append]
  rw [hrev, dirOfAux_append, List.reverse_reverse]
  have htxt : ∀ c ∈ (".txt").data.reverse, ¬ c = '/' := by decide
  intro c hc
  rcases List.mem_append.mp hc with h1 | h2
  · exact htxt c h1
  · exact h c (List.mem_reverse.mp h2)

theorem splitSeg_append (xs ys : List Char) (h : ∀ c ∈ xs, ¬ c = '/') :
    splitSeg (xs ++ '/' :: ys) = (xs, '/' :: ys) := by
  induction xs with
  | nil => simp [splitSeg]
  | cons c cs ih =>
      have hc : ¬ c = '/' := h c (List.mem_cons_self c cs)
      simp only [List.cons_append, splitSeg, if_neg hc, List.append_eq]
      rw [ih (fun d hd => h d (List.mem_cons_of_mem c hd))]

theorem matchPath_concat (acts : List String) (tc : Char → Bool) (a t : String)
    (ha : ∀ c ∈ a.data, ¬ c = '/')
    (hmem : acts.contains a = true)
    (hne : ¬ t.data = [])
    (hall : t.data.all tc = true) :
    matchPath acts tc ('/' :: (a.data ++ '/' :: t.data)) = some (a, t) := by
  have hsplit := splitSeg_append a.data t.data ha
  have hcond : ('/' = '/' && acts.contains a && !t.data.isEmpty && t.data.all tc)
      = true := by
    simp only [Bool.and_eq_true]
    refine ⟨⟨⟨by simp, hmem⟩, ?_⟩, hall⟩
    simp [List.isEmpty_iff, hne]
  show (if ('/' : Char) = '/' then
          match splitSeg (a.data ++ '/' :: t.data) with
          | (seg, d :: title) =>
              if d = '/' && acts.contains ⟨seg⟩ && !title.isEmpty && title.all tc then
                some (⟨seg⟩, ⟨title⟩)
              else none
          | (_, []) => none
        else none) = some (a, t)
  rw [if_pos rfl, hsplit]
  show (if ('/' = '/' && acts.contains a && !t.data.isEmpty && t.data.all tc)
          = true then some (a, t) else none) = some (a, t)
  rw [if_pos hcond]

theorem matchPath_some (acts : List String) (tc : Char → Bool) (cs : List Char)
    (a t : String) (h : matchPath acts tc cs = some (a, t)) :
    ¬ t.data = [] ∧ t.data.all tc = true := by
  match cs with
  | [] => simp [matchPath] at h
  | c :: rest =>
    simp only [matchPath] at h
    split at h
    · split at h
      next seg d title heq =>
        split at h
        next hcond =>
          simp only [Option.some.injEq, Prod.mk.injEq] at h
          obtain ⟨hA, hT⟩ := h
          subst hT
          simp only [Bool.and_eq_true] at hcond
          refine ⟨?_, hcond.2⟩
          have hne := hcond.1.2
          rw [Bool.not_eq_true'] at hne
          show ¬ title = []
          intro hnil
          rw [hnil] at hne
          simp at hne
        next => exact absurd h (by simp)
      next => exact absurd h (by simp)
    · exact absurd h (by simp)

/-! ### Helper lemmas about the character classes -/

theorem isTitleChar_ne (c : Char) (h : isTitleChar c = true) :
    ¬ c = '/' ∧ ¬ c = '.' ∧ ¬ c = ' ' := by
  refine ⟨?_, ?_, ?_⟩ <;> rintro rfl <;> exact absurd h (by decide)

theorem isTitleCharV1_le (c : Char) (h : isTitleCharV1 c = true) :
    isTitleChar c = true := by
  simp [isTitleChar, h]

theorem isValidTitle_parts (t : String) (h : isValidTitle t = true) :
    ¬ t.data = [] ∧ t.data.all isTitleChar = true := by
  simp only [isValidTitle, Bool.and_eq_true, Bool.not_eq_true',
    List.isEmpty_iff] at h
  exact ⟨fun hn => by simp [hn] at h, h.2⟩

theorem replaceSpaces_eq_self (t : String) (h : t.data.all isTitleChar = true) :
    replaceSpaces t = t := by
  apply String.ext
  show t.data.map (fun c => if c = ' ' then '_' else c) = t.data
  have : ∀ l : List Char, l.all isTitleChar = true →
      l.map (fun c => if c = ' ' then '_' else c) = l := by
    intro l hl
    induction l with
    | nil => rfl
    | cons c cs ih =>
        simp only [List.all_cons, Bool.and_eq_true] at hl
        have hc : ¬ c = ' ' := (isTitleChar_ne c hl.1).2.2
        simp only [List.map_cons, if_neg hc]
        rw [ih hl.2]
  exact this t.data h

/-! ### Claim C2 — Title Validator and dispatcher -/

/-- Claim C2, counterexample: the claim says the validator's pattern is
`^/(edit|save|view|delete)/([A-Za-z0-9_-]+)$`.  On path `/delete/a` that
pattern matches with title `a`, but both revisions' `validPath` reject it and
the dispatcher answers not found with no handler invoked; on `/view/a_b` the
claimed pattern matches, but the initial revision's class `[a-zA-Z0-9]`
rejects the underscore. -/
theorem claim2_pattern_counterexample :
    specFindValidPath "/delete/a" = some ("delete", "a") ∧
    findValidPath "/delete/a" = none ∧
    findValidPathV1 "/delete/a" = none ∧
    specFindValidPath "/view/a_b" = some ("view", "a_b") ∧
    findValidPathV1 "/view/a_b" = none ∧
    makeHandler (fun t fs => (fs, .render "view" ⟨t, []⟩)) "/delete/a" fsEmpty =
      (fsEmpty, .notFound) :=
  ⟨by decide, by decide, by decide, by decide, by decide, by decide⟩

/-- Claim C2 (amended): for every request path, the validator matches it
against `^/(edit|save|view)/([a-zA-Z0-9-_]+)$` (later revision; the initial
revision's class is `[a-zA-Z0-9]`); on match the handler is invoked with
captured group 2 as title, and on no match the response is not found with no
handler invoked and the filesystem untouched. -/
theorem claim2_validator_dispatch (path : String) (fs : FS)
    (fn : String → FS → FS × Response) :
    ((findValidPath path = none → makeHandler fn path fs = (fs, .notFound)) ∧
     (∀ a t, findValidPath path = some (a, t) → makeHandler fn path fs = fn t fs)) ∧
    ((findValidPathV1 path = none → makeHandlerV1 fn path fs = (fs, .notFound)) ∧
     (∀ a t, findValidPathV1 path = some (a, t) →
        makeHandlerV1 fn path fs = fn t fs)) := by
  refine ⟨⟨fun h => ?_, fun a t h => ?_⟩, fun h => ?_, fun a t h => ?_⟩
  · simp [makeHandler, h]
  · simp [makeHandler, h]
  · simp [makeHandlerV1, h]
  · simp [makeHandlerV1, h]

/-- Claim C2, witness: the amended dispatch theorem applied to the rejected
path `/delete/a` on the empty filesystem. -/
theorem claim2_validator_dispatch_witness :
    makeHandler (fun t fs => (fs, .render "edit" ⟨t, []⟩)) "/delete/a" fsEmpty =
      (fsEmpty, .notFound) :=
  (claim2_validator_dispatch "/delete/a" fsEmpty
    (fun t fs => (fs, .render "edit" ⟨t, []⟩))).1.1 (by decide)

/-! ### Claim C3 — save/load round-trip -/

/-- Claim C3: for every title matching the allow-list pattern and every body,
saving `Page{t, b}` and then loading `t` succeeds and returns a page whose
body is byte-for-byte identical to `b`. -/
theorem claim3_save_load_roundtrip (t : String) (b : Bytes) (fs fs' : FS)
    (hv : isValidTitle t = true)
    (h : Page.save ⟨t, b⟩ fs = .ok fs') :
    loadPage t fs' = some ⟨t, b⟩ := by
  simp only [Page.save, FS.writeFile] at h
  split at h
  · injection h with h
    subst h
    simp only [loadPage, FS.readFile]
    cases hl : lookupFile ("pages/" ++ (t ++ ".txt")) fs.files with
    | none => rw [lookupFile_setFile_none _ _ _ _ hl]
    | some p =>
        obtain ⟨old, m⟩ := p
        rw [lookupFile_setFile_some _ _ _ _ _ _ hl]
  · exact absurd h (by simp)
  · exact absurd h (by simp)

/-- Claim C3, witness: the round-trip theorem at title `test`, body the bytes
of `hi`, on the writable pages directory. -/
theorem claim3_save_load_roundtrip_witness :
    loadPage "test" fsW1 = some ⟨"test", strBytes "hi"⟩ :=
  claim3_save_load_roundtrip "test" (strBytes "hi") fsW fsW1 (by decide) (by decide)

/-! ### Claim C4 — save semantics -/

/-- Claim C4, counterexample: the claim says save fails exactly when the
pages directory is missing or unwritable.  With a writable pages directory
present, saving a page whose title is `a/b` still fails (the write targets
`pages/a/b.txt`, whose containing directory `pages/a` does not exist). -/
theorem claim4_save_counterexample :
    Page.save ⟨"a/b", []⟩ fsW =
      .error "open pages/a/b.txt: no such file or directory" ∧
    fsW.dirs.lookup "pages" = some true :=
  ⟨by decide, by decide⟩

/-- Claim C4 (amended): for every page whose title contains no path
separator, save writes `pages/<title>.txt`, creating it with owner-only mode
0600 when absent and completely replacing its previous body when present (no
append or merge), and it fails exactly when the pages directory is missing or
unwritable. -/
theorem claim4_save_semantics (p : Page) (fs : FS)
    (hs : ∀ c ∈ p.Title.data, ¬ c = '/') :
    (fs.dirs.lookup "pages" = none → ∃ e, p.save fs = .error e) ∧
    (fs.dirs.lookup "pages" = some false → ∃ e, p.save fs = .error e) ∧
    (fs.dirs.lookup "pages" = some true →
      ∃ fs', p.save fs = .ok fs' ∧
        (lookupFile ("pages/" ++ (p.Title ++ ".txt")) fs.files = none →
          lookupFile ("pages/" ++ (p.Title ++ ".txt")) fs'.files =
            some (p.Body, 0o600)) ∧
        (∀ old m,
          lookupFile ("pages/" ++ (p.Title ++ ".txt")) fs.files = some (old, m) →
          lookupFile ("pages/" ++ (p.Title ++ ".txt")) fs'.files =
            some (p.Body, m))) := by
  have hdir : dirOf ("pages/" ++ (p.Title ++ ".txt")) = "pages" :=
    dirOf_pages p.Title hs
  refine ⟨fun h => ?_, fun h => ?_, fun h => ?_⟩
  · simp only [Page.save, FS.writeFile, hdir, h]
    exact ⟨_, rfl⟩
  · simp only [Page.save, FS.writeFile, hdir, h]
    exact ⟨_, rfl⟩
  · refine ⟨⟨fs.dirs, setFile ("pages/" ++ (p.Title ++ ".txt")) p.Body 0o600 fs.files⟩,
      ?_, fun hn => ?_, fun old m hm => ?_⟩
    · simp only [Page.save, FS.writeFile, hdir, h]
    · exact lookupFile_setFile_none _ _ _ _ hn
    · exact lookupFile_setFile_some _ _ _ _ _ _ hm

/-- Claim C4, witness: the amended save theorem on the writable pages
directory, creating `pages/test.txt` with mode 0600. -/
theorem claim4_save_semantics_witness :
    ∃ fs', Page.save ⟨"test", strBytes "hi"⟩ fsW = .ok fs' ∧
      (lookupFile ("pages/" ++ ("test" ++ ".txt")) fsW.files = none →
        lookupFile ("pages/" ++ ("test" ++ ".txt")) fs'.files =
          some (strBytes "hi", 0o600)) ∧
      (∀ old m,
        lookupFile ("pages/" ++ ("test" ++ ".txt")) fsW.files = some (old, m) →
        lookupFile ("pages/" ++ ("test" ++ ".txt")) fs'.files =
          some (strBytes "hi", m)) :=
  (claim4_save_semantics ⟨"test", strBytes "hi"⟩ fsW (by decide)).2.2 (by decide)

/-! ### Claim C5 — view handler -/

/-- Claim C5: for every validated title, viewing redirects with 302 to the
edit action when the load fails, and renders the view template with the
loaded page when it succeeds. -/
theorem claim5_view_handler (t : String) (fs : FS)
    (hv : isValidTitle t = true) :
    (loadPage t fs = none → viewHandler t fs = .redirect ("/edit/" ++ t) 302) ∧
    (∀ p, loadPage t fs = some p → viewHandler t fs = .render "view" p) := by
  constructor
  · intro h
    simp [viewHandler, h, statusFound]
  · intro p h
    simp [viewHandler, h]

/-- Claim C5, witness: viewing the absent page `missing` redirects to its
edit form. -/
theorem claim5_view_handler_witness :
    viewHandler "missing" fsEmpty = .redirect ("/edit/" ++ "missing") 302 :=
  (claim5_view_handler "missing" fsEmpty (by decide)).1 (by decide)

/-! ### Claim C6 — edit handler -/

/-- Claim C6: for every validated title, the edit handler renders the edit
template with a page of that title and empty body when the load fails, and
with the loaded page otherwise. -/
theorem claim6_edit_handler (t : String) (fs : FS)
    (hv : isValidTitle t = true) :
    (loadPage t fs = none → editHandler t fs = .render "edit" ⟨t, []⟩) ∧
    (∀ p, loadPage t fs = some p → editHandler t fs = .render "edit" p) := by
  constructor
  · intro h
    simp [editHandler, h]
  · intro p h
    simp [editHandler, h]

/-- Claim C6, witness: editing the absent page `missing` renders the edit
form with an empty body. -/
theorem claim6_edit_handler_witness :
    editHandler "missing" fsEmpty = .render "edit" ⟨"missing", []⟩ :=
  (claim6_edit_handler "missing" fsEmpty (by decide)).1 (by decide)

/-! ### Claim C7 — save handler -/

/-- Claim C7: for every validated title, the save handler reads the body form
field, replaces every space in the title with an underscore (a no-op on a
validated title, whose class excludes spaces), persists the page, and on
success redirects with 302 to the view action for that title, while a
persistence failure yields a server error whose response body is the failure
detail. -/
theorem claim7_save_handler (title body : String) (fs : FS)
    (hv : isValidTitle title = true) :
    replaceSpaces title = title ∧
    (∀ fs', Page.save ⟨replaceSpaces title, strBytes body⟩ fs = .ok fs' →
      saveHandler title body fs =
        (fs', .redirect ("/view/" ++ replaceSpaces title) 302)) ∧
    (∀ e, Page.save ⟨replaceSpaces title, strBytes body⟩ fs = .error e →
      saveHandler title body fs = (fs, .serverError e)) := by
  refine ⟨replaceSpaces_eq_self title (isValidTitle_parts title hv).2,
    fun fs' h => ?_, fun e h => ?_⟩
  · simp [saveHandler, h, statusFound]
  · simp [saveHandler, h]

/-- Claim C7, witness: saving `test` with form body `hi` on the writable
pages directory persists it and redirects to its view. -/
theorem claim7_save_handler_witness :
    saveHandler "test" "hi" fsW =
      (fsW1, .redirect ("/view/" ++ replaceSpaces "test") 302) :=
  (claim7_save_handler "test" "hi" fsW (by decide)).2.1 fsW1 (by decide)

/-! ### Claim C8 — home handler path check -/

/-- Claim C8, counterexample: the claim says every request dispatched to the
home handler with a path other than `/` yields not found.  When the pages
directory cannot be opened the handler returns before the path check without
writing anything (an empty 200, not a 404). -/
theorem claim8_home_counterexample :
    homeHandler "/xyz" fsEmpty = .empty ∧ Response.empty ≠ Response.notFound :=
  ⟨by decide, by decide⟩

/-- Claim C8 (amended): for every request dispatched to the home handler
whose path is not exactly `/`, provided the pages directory can be opened and
listed, the response is a not-found status. -/
theorem claim8_home_not_found (path : String) (fs : FS) (names : List String)
    (h : fs.readDirPages = .ok names) (hp : ¬ path = "/") :
    homeHandler path fs = .notFound := by
  simp [homeHandler, h, hp]

/-- Claim C8, witness: a request for `/nope` with a listable pages directory
is answered not found. -/
theorem claim8_home_not_found_witness :
    homeHandler "/nope" fsHome = .notFound :=
  claim8_home_not_found "/nope" fsHome ["a.txt", "b.md"] (by decide) (by decide)

/-! ### Claim C9 — home listing swallows load failures -/

/-- Claim C9: for `GET /`, the home handler lists the stored files, loads
each stripped title as a page, and an entry whose load fails is silently kept
in the rendered list as an absent (nil) entry; no error response is produced
for it. -/
theorem claim9_home_listing (fs : FS) (names : List String)
    (h : fs.readDirPages = .ok names) :
    homeHandler "/" fs =
      .renderHome (names.map
        (fun v => loadPage ( fileNameWithoutExtSliceNotation v) fs)) ∧
    (∀ v ∈ names, loadPage ( fileNameWithoutExtSliceNotation v) fs = none →
      none ∈ names.map
        (fun v => loadPage ( fileNameWithoutExtSliceNotation v) fs)) ∧
    (∀ e, homeHandler "/" fs ≠ .serverError e) ∧
    homeHandler "/" fs ≠ .notFound := by
  have h1 : homeHandler "/" fs =
      .renderHome (names.map
        (fun v => loadPage ( fileNameWithoutExtSliceNotation v) fs)) := by
    simp [homeHandler, h]
  refine ⟨h1, fun v hv hnone => ?_, fun e => ?_, ?_⟩
  · exact List.mem_map.mpr ⟨v, hv, hnone⟩
  · simp [h1]
  · simp [h1]

/-- Claim C9, witness: the home listing over a directory holding `a.txt` and
the stray `b.md`; the failed load of title `b` appears as a nil entry. -/
theorem claim9_home_listing_witness :
    homeHandler "/" fsHome =
      .renderHome (["a.txt", "b.md"].map
        (fun v => loadPage ( fileNameWithoutExtSliceNotation v) fsHome)) :=
  (claim9_home_listing fsHome ["a.txt", "b.md"] (by decide)).1

/-! ### Claim C10 — titles reaching handlers are separator-free -/

/-- Claim C10: every title delivered by either revision's validator consists
only of characters of the validator's class — in particular no `/`, `.` or
space — so the file path `pages/<title>.txt` the handlers compute lies
directly inside the pages directory. -/
theorem claim10_title_invariant (path a t : String)
    (h : findValidPath path = some (a, t) ∨ findValidPathV1 path = some (a, t)) :
    ¬ t.data = [] ∧
    (∀ c ∈ t.data, isTitleChar c = true ∧ ¬ c = '/' ∧ ¬ c = '.' ∧ ¬ c = ' ') ∧
    dirOf ("pages/" ++ (t ++ ".txt")) = "pages" := by
  have hall : ¬ t.data = [] ∧ ∀ c ∈ t.data, isTitleChar c = true := by
    cases h with
    | inl h =>
        have hm := matchPath_some _ _ _ _ _ h
        exact ⟨hm.1, fun c hc => List.all_eq_true.mp hm.2 c hc⟩
    | inr h =>
        have hm := matchPath_some _ _ _ _ _ h
        exact ⟨hm.1, fun c hc => isTitleCharV1_le c (List.all_eq_true.mp hm.2 c hc)⟩
  refine ⟨hall.1, fun c hc => ⟨hall.2 c hc, isTitleChar_ne c (hall.2 c hc)⟩,
    dirOf_pages t (fun c hc => (isTitleChar_ne c (hall.2 c hc)).1)⟩

/-- Claim C10, witness: the invariant at the accepted path `/view/abc`. -/
theorem claim10_title_invariant_witness :
    ¬ ("abc" : String).data = [] ∧
    (∀ c ∈ ("abc" : String).data,
      isTitleChar c = true ∧ ¬ c = '/' ∧ ¬ c = '.' ∧ ¬ c = ' ') ∧
    dirOf ("pages/" ++ ("abc" ++ ".txt")) = "pages" :=
  claim10_title_invariant "/view/abc" "view" "abc" (Or.inl (by decide))

/-! ### Claim C1 — delete route (modelled from the spec) -/

/-- Claim C1: for every stored page with a validated title, a GET request to
`/delete/<t>` removes `pages/<t>.txt` and on success responds with a 302
redirect to `/`, so that a subsequent load of `t` reports not found.  The
delete route and handler are modelled from the spec, being absent from
src/. -/
theorem claim1_delete_route (t : String) (fs : FS) (p : Page)
    (hv : isValidTitle t = true)
    (hl : loadPage t fs = some p) :
    ∃ fs', deleteRoute ("/delete/" ++ t) fs = (fs', .redirect "/" 302) ∧
      loadPage t fs' = none ∧
      lookupFile ("pages/" ++ (t ++ ".txt")) fs'.files = none := by
  obtain ⟨hne, hall⟩ := isValidTitle_parts t hv
  have hmatch : specFindValidPath ("/delete/" ++ t) = some ("delete", t) := by
    have hd : ("/delete/" ++ t).data = '/' :: ("delete".data ++ '/' :: t.data) := rfl
    unfold specFindValidPath
    rw [hd]
    exact matchPath_concat _ _ "delete" t (by decide) (by decide) hne hall
  cases hlf : lookupFile ("pages/" ++ (t ++ ".txt")) fs.files with
  | none =>
      exfalso
      simp [loadPage, FS.readFile, hlf] at hl
  | some bm =>
      refine ⟨⟨fs.dirs, eraseFile ("pages/" ++ (t ++ ".txt")) fs.files⟩, ?_, ?_, ?_⟩
      · simp only [deleteRoute, hmatch, deleteHandler, FS.remove, hlf, statusFound]
      · simp only [loadPage, FS.readFile]
        rw [lookupFile_eraseFile]
      · exact lookupFile_eraseFile _ _

/-- Claim C1, witness: deleting the stored page `test` redirects home and a
subsequent load of `test` fails. -/
theorem claim1_delete_route_witness :
    ∃ fs', deleteRoute ("/delete/" ++ "test") fsW1 = (fs', .redirect "/" 302) ∧
      loadPage "test" fs' = none ∧
      lookupFile ("pages/" ++ ("test" ++ ".txt")) fs'.files = none :=
  claim1_delete_route "test" fsW1 ⟨"test", strBytes "hi"⟩ (by decide) (by decide)

end Wiki
